import Mathlib

/-!
Verification development for the glam linear-algebra core (crate root
src/src/lib.rs).  The repository snapshot contains only the crate root:
the implementation modules it declares (`mod core`, `mod vec2/3/4`,
`mod mat2/3/4`, `mod quat`, `mod swizzles`, `mod vec_mask`) are not
present, so the data model and the operations below are modelled from
the specification (spec.md sections 3, 4.1 to 4.5, 6) and from the
doc-test examples embedded in src/src/lib.rs.

Scalar elements of the float families are modelled by exact rationals
(ℚ) for the computable layer and by ℝ for the quaternion layer; the
integer families are the subset of ℚ with denominator one.
-/

namespace Glam

/-- Modelled from the spec (§4.1, §3): the scalar-backed 4-component
storage struct, named `XYZW` as in src/src/lib.rs line 210
(`core::storage::XYZW`); the struct body is in the missing module
`core`.  An ordered tuple of four scalar field elements. -/
structure XYZW (α : Type) where
  x : α
  y : α
  z : α
  w : α
deriving DecidableEq

/-- Modelled from the spec (§4.1, §3): the register-backed (SIMD)
4-lane storage container; the concrete `__m128`-based code is in the
missing module `core`.  Four lanes, all meaningful for a 4-component
aggregate. -/
structure SimdReg (α : Type) where
  l0 : α
  l1 : α
  l2 : α
  l3 : α
deriving DecidableEq

/-- Loading a scalar-backed tuple into a register, lane i taking
component i (the field-access contract of spec §4.1 shared by both
backends). -/
def SimdReg.ofXYZW {α : Type} (v : XYZW α) : SimdReg α :=
  ⟨v.x, v.y, v.z, v.w⟩

/-- Reading a register back to the scalar-backed tuple, component i
taking lane i. -/
def SimdReg.toXYZW {α : Type} (r : SimdReg α) : XYZW α :=
  ⟨r.l0, r.l1, r.l2, r.l3⟩

/-- Modelled from the spec (§4.2): the component-wise binary operations
of the vector operation set (add, subtract, multiply, component-wise
min and max); their implementations live in the missing `vec`/`core`
modules. -/
inductive BinOp : Type
  | add
  | sub
  | mul
  | vmin
  | vmax
deriving DecidableEq

/-- The action of a binary operation on one scalar field element. -/
def elemBinOp : BinOp → ℚ → ℚ → ℚ
  | BinOp.add, a, b => a + b
  | BinOp.sub, a, b => a - b
  | BinOp.mul, a, b => a * b
  | BinOp.vmin, a, b => min a b
  | BinOp.vmax, a, b => max a b

/-- Modelled from the spec (§4.2): the scalar backend applies a binary
operation component by component on the tuple. -/
def XYZW.binOp (op : BinOp) (a b : XYZW ℚ) : XYZW ℚ :=
  ⟨elemBinOp op a.x b.x, elemBinOp op a.y b.y,
   elemBinOp op a.z b.z, elemBinOp op a.w b.w⟩

/-- Modelled from the spec (§4.2, §2): the register backend applies the
same binary operation lane by lane, as one SIMD instruction would. -/
def SimdReg.binOp (op : BinOp) (a b : SimdReg ℚ) : SimdReg ℚ :=
  ⟨elemBinOp op a.l0 b.l0, elemBinOp op a.l1 b.l1,
   elemBinOp op a.l2 b.l2, elemBinOp op a.l3 b.l3⟩

/-- Modelled from the spec (§4.2): scalar-backend dot product, the sum
of the component products in component order. -/
def XYZW.dot (a b : XYZW ℚ) : ℚ :=
  a.x * b.x + a.y * b.y + a.z * b.z + a.w * b.w

/-- Modelled from the spec (§4.2): register-backend dot product — a
lane-wise multiply followed by a horizontal reduction, which adds the
lane products in the shuffled association an SSE2 horizontal add
produces: (p0 + p2) + (p1 + p3). -/
def SimdReg.dot (a b : SimdReg ℚ) : ℚ :=
  (a.l0 * b.l0 + a.l2 * b.l2) + (a.l1 * b.l1 + a.l3 * b.l3)

/-- Modelled from the spec (§4.2): scalar-backend equality — exact,
component-wise, in component order. -/
def XYZW.beq (a b : XYZW ℚ) : Bool :=
  a.x == b.x && a.y == b.y && a.z == b.z && a.w == b.w

/-- Modelled from the spec (§4.2): register-backend equality — a
lane-wise compare producing a mask, accepted when every lane matched;
the mask test groups the low and high lane pairs. -/
def SimdReg.beq (a b : SimdReg ℚ) : Bool :=
  ((a.l0 == b.l0) && (a.l1 == b.l1)) && ((a.l2 == b.l2) && (a.l3 == b.l3))

/-- Rendering of one scalar field element, as Rust `Display` renders an
`f32` holding an integral value: integral rationals print as their
integer, per the doc test at src/src/lib.rs line 144. -/
def fmtElem (q : ℚ) : String :=
  if q.den = 1 then toString q.num else toString q

/-- Modelled from the spec (§6, text formatting): the scalar backend
renders a 4-component vector as an ordered, comma-separated, bracketed
list of its components. -/
def XYZW.fmt (v : XYZW ℚ) : String :=
  "[" ++ fmtElem v.x ++ ", " ++ fmtElem v.y ++ ", " ++
    fmtElem v.z ++ ", " ++ fmtElem v.w ++ "]"

/-- Modelled from the spec (§6 and src/src/lib.rs lines 138 to 139):
the register backend renders from its lanes in lane order. -/
def SimdReg.fmt (r : SimdReg ℚ) : String :=
  "[" ++ fmtElem r.l0 ++ ", " ++ fmtElem r.l1 ++ ", " ++
    fmtElem r.l2 ++ ", " ++ fmtElem r.l3 ++ "]"

/-- Modelled from the spec (§3): the public 2-component vector type
`Vec2` (declared at src/src/lib.rs line 233; implementation module
`vec2` is missing), an ordered pair of scalar field elements. -/
structure Vec2 (α : Type) where
  x : α
  y : α
deriving DecidableEq

/-- Modelled from the spec (§3, src/src/lib.rs lines 56 to 58): the
public unpadded 3-component vector type `Vec3` — three components,
natural element alignment, no padding. -/
structure Vec3 (α : Type) where
  x : α
  y : α
  z : α
deriving DecidableEq

/-- Modelled from the spec (§3): the public 4-component vector type
`Vec4`. -/
structure Vec4 (α : Type) where
  x : α
  y : α
  z : α
  w : α
deriving DecidableEq

/-- Modelled from the spec (§3, §4.1, src/src/lib.rs lines 50 to 59):
the padded SIMD-friendly 3-component vector `Vec3A` — a register-shaped
container with three meaningful lanes plus one unused lane; per spec
§4.1 the unused lane holds a fixed, documented value (zero), so that
equality, formatting and serialization never observe nondeterministic
padding. -/
structure Vec3A (α : Type) where
  x : α
  y : α
  z : α
  pad : α
deriving DecidableEq

/-- Modelled from the spec (§4.5, src/src/lib.rs lines 85 to 87): the
`From<Vec3> for Vec3A` conversion — copies the three components, the
unused lane taking its fixed value. -/
def Vec3A.ofVec3 {α : Type} [Zero α] (v : Vec3 α) : Vec3A α :=
  ⟨v.x, v.y, v.z, 0⟩

/-- Modelled from the spec (§4.5, src/src/lib.rs lines 81 to 83): the
`From<Vec3A> for Vec3` conversion — reads back the three meaningful
lanes, dropping the padding. -/
def Vec3.ofVec3A {α : Type} (v : Vec3A α) : Vec3 α :=
  ⟨v.x, v.y, v.z⟩

/-- Modelled from the spec (§4.5, src/src/lib.rs lines 75 to 79): the
`From<Vec4> for Vec3A` conversion — the fourth element is discarded,
the unused lane taking its fixed value. -/
def Vec3A.ofVec4 {α : Type} [Zero α] (v : Vec4 α) : Vec3A α :=
  ⟨v.x, v.y, v.z, 0⟩

/-- Component accessor of `Vec4` by fixed index (the per-component read
access of the storage contract, spec §4.1). -/
def Vec4.comp {α : Type} (v : Vec4 α) : Fin 4 → α
  | 0 => v.x
  | 1 => v.y
  | 2 => v.z
  | 3 => v.w

/-- Component accessor of `Vec3` by fixed index. -/
def Vec3.comp {α : Type} (v : Vec3 α) : Fin 3 → α
  | 0 => v.x
  | 1 => v.y
  | 2 => v.z

/-- Component accessor of `Vec2` by fixed index. -/
def Vec2.comp {α : Type} (v : Vec2 α) : Fin 2 → α
  | 0 => v.x
  | 1 => v.y

/-- Modelled from the spec (§4.5): the generic size-reducing 4-to-3
swizzle — the destination holds exactly the addressed source
components, in the addressed order. -/
def Vec4.swizzle3 {α : Type} (v : Vec4 α) (i j k : Fin 4) : Vec3 α :=
  ⟨v.comp i, v.comp j, v.comp k⟩

/-- Modelled from the spec (§4.5): the generic size-reducing 4-to-2
swizzle. -/
def Vec4.swizzle2 {α : Type} (v : Vec4 α) (i j : Fin 4) : Vec2 α :=
  ⟨v.comp i, v.comp j⟩

/-- Modelled from the spec (§4.5): the generic 4-to-4 swizzle. -/
def Vec4.swizzle4 {α : Type} (v : Vec4 α) (i j k l : Fin 4) : Vec4 α :=
  ⟨v.comp i, v.comp j, v.comp k, v.comp l⟩

/-- Modelled from `Vec4Swizzles` (trait re-exported at src/src/lib.rs
line 238; doc test lines 109 to 111): reverse the elements. -/
def Vec4.wzyx {α : Type} (v : Vec4 α) : Vec4 α :=
  ⟨v.w, v.z, v.y, v.x⟩

/-- Modelled from `Vec4Swizzles` (doc test at src/src/lib.rs lines 113
to 115): take components y, z, w into a `Vec3`. -/
def Vec4.yzw {α : Type} (v : Vec4 α) : Vec3 α :=
  ⟨v.y, v.z, v.w⟩

/-- Modelled from `Vec4Swizzles` (doc test at src/src/lib.rs lines 123
to 125): take components x, y into a `Vec2`. -/
def Vec4.xy {α : Type} (v : Vec4 α) : Vec2 α :=
  ⟨v.x, v.y⟩

/-- Modelled from `Vec4Swizzles`: the identity-ordering swizzle on a
4-component vector. -/
def Vec4.xyzw {α : Type} (v : Vec4 α) : Vec4 α :=
  ⟨v.x, v.y, v.z, v.w⟩

/-- Modelled from `Vec3Swizzles`: the identity-ordering swizzle on a
3-component vector. -/
def Vec3.xyz {α : Type} (v : Vec3 α) : Vec3 α :=
  ⟨v.x, v.y, v.z⟩

/-- Modelled from `Vec2Swizzles`: the identity-ordering swizzle on a
2-component vector. -/
def Vec2.xy {α : Type} (v : Vec2 α) : Vec2 α :=
  ⟨v.x, v.y⟩

/-- Modelled from `Vec2Swizzles` (doc test at src/src/lib.rs lines 127
to 129): the size-increasing swizzle yyxx, duplicating both source
components into a `Vec4`. -/
def Vec2.yyxx {α : Type} (v : Vec2 α) : Vec4 α :=
  ⟨v.y, v.y, v.x, v.x⟩

/-- Modelled from the spec (§4.1): the `Vec3A::new` constructor from
three scalars (doc test at src/src/lib.rs line 79), the unused lane
taking its fixed value. -/
def Vec3A.new {α : Type} [Zero α] (x y z : α) : Vec3A α :=
  ⟨x, y, z, 0⟩

/-- Modelled from the spec (§6) and the doc test at src/src/lib.rs
lines 141 to 145: `Display` for the public 4-component vector renders
an ordered, comma-separated, bracketed list of the components. -/
def Vec4.fmt (v : Vec4 ℚ) : String :=
  "[" ++ fmtElem v.x ++ ", " ++ fmtElem v.y ++ ", " ++
    fmtElem v.z ++ ", " ++ fmtElem v.w ++ "]"

/-- Component-wise vector addition (spec §4.2). -/
def Vec2.add {α : Type} [Add α] (a b : Vec2 α) : Vec2 α :=
  ⟨a.x + b.x, a.y + b.y⟩

/-- Scalar-broadcast multiplication of a 2-vector (spec §4.2). -/
def Vec2.scale {α : Type} [Mul α] (s : α) (v : Vec2 α) : Vec2 α :=
  ⟨s * v.x, s * v.y⟩

/-- Component-wise vector addition (spec §4.2). -/
def Vec3.add {α : Type} [Add α] (a b : Vec3 α) : Vec3 α :=
  ⟨a.x + b.x, a.y + b.y, a.z + b.z⟩

/-- Scalar-broadcast multiplication of a 3-vector (spec §4.2). -/
def Vec3.scale {α : Type} [Mul α] (s : α) (v : Vec3 α) : Vec3 α :=
  ⟨s * v.x, s * v.y, s * v.z⟩

/-- Component-wise vector addition (spec §4.2). -/
def Vec4.add {α : Type} [Add α] (a b : Vec4 α) : Vec4 α :=
  ⟨a.x + b.x, a.y + b.y, a.z + b.z, a.w + b.w⟩

/-- Scalar-broadcast multiplication of a 4-vector (spec §4.2). -/
def Vec4.scale {α : Type} [Mul α] (s : α) (v : Vec4 α) : Vec4 α :=
  ⟨s * v.x, s * v.y, s * v.z, s * v.w⟩

/-- The unit x vector, `Vec3::unit_x()` of the doc test at
src/src/lib.rs line 26. -/
def Vec3.unit_x {α : Type} [Zero α] [One α] : Vec3 α :=
  ⟨1, 0, 0⟩

/-- Modelled from the spec (§3, §4.3): a 2x2 matrix as an ordered
sequence of column vectors (column-major); field names follow glam's
`x_axis`/`y_axis` columns.  Implementation module `mat2` is missing. -/
structure Mat2 (α : Type) where
  x_axis : Vec2 α
  y_axis : Vec2 α
deriving DecidableEq

/-- Modelled from the spec (§3, §4.3): a 3x3 column-major matrix. -/
structure Mat3 (α : Type) where
  x_axis : Vec3 α
  y_axis : Vec3 α
  z_axis : Vec3 α
deriving DecidableEq

/-- Modelled from the spec (§3, §4.3): a 4x4 column-major matrix. -/
structure Mat4 (α : Type) where
  x_axis : Vec4 α
  y_axis : Vec4 α
  z_axis : Vec4 α
  w_axis : Vec4 α
deriving DecidableEq

/-- Modelled from the spec (§4.3): `Mat2::identity()`. -/
def Mat2.identity {α : Type} [Zero α] [One α] : Mat2 α :=
  ⟨⟨1, 0⟩, ⟨0, 1⟩⟩

/-- Modelled from the spec (§4.3): `Mat3::identity()` (doc test at
src/src/lib.rs line 25). -/
def Mat3.identity {α : Type} [Zero α] [One α] : Mat3 α :=
  ⟨⟨1, 0, 0⟩, ⟨0, 1, 0⟩, ⟨0, 0, 1⟩⟩

/-- Modelled from the spec (§4.3): `Mat4::identity()`. -/
def Mat4.identity {α : Type} [Zero α] [One α] : Mat4 α :=
  ⟨⟨1, 0, 0, 0⟩, ⟨0, 1, 0, 0⟩, ⟨0, 0, 1, 0⟩, ⟨0, 0, 0, 1⟩⟩

/-- Modelled from the spec (§4.3): matrix-vector product as the linear
combination of the columns weighted by the vector components, the
column-major convention of src/src/lib.rs lines 20 to 31. -/
def Mat2.mulVec {α : Type} [Add α] [Mul α] (m : Mat2 α) (v : Vec2 α) :
    Vec2 α :=
  (Vec2.scale v.x m.x_axis).add (Vec2.scale v.y m.y_axis)

/-- Modelled from the spec (§4.3): 3x3 matrix-vector product,
`M * v = v.x*col0 + v.y*col1 + v.z*col2`. -/
def Mat3.mulVec {α : Type} [Add α] [Mul α] (m : Mat3 α) (v : Vec3 α) :
    Vec3 α :=
  ((Vec3.scale v.x m.x_axis).add (Vec3.scale v.y m.y_axis)).add
    (Vec3.scale v.z m.z_axis)

/-- Modelled from the spec (§4.3): 4x4 matrix-vector product. -/
def Mat4.mulVec {α : Type} [Add α] [Mul α] (m : Mat4 α) (v : Vec4 α) :
    Vec4 α :=
  (((Vec4.scale v.x m.x_axis).add (Vec4.scale v.y m.y_axis)).add
    (Vec4.scale v.z m.z_axis)).add (Vec4.scale v.w m.w_axis)

/-- Modelled from the spec (§4.3): matrix-matrix product — each column
of the result is the left matrix applied to the corresponding column of
the right matrix (standard composition, column-major). -/
def Mat2.mulMat {α : Type} [Add α] [Mul α] (a b : Mat2 α) : Mat2 α :=
  ⟨a.mulVec b.x_axis, a.mulVec b.y_axis⟩

/-- Modelled from the spec (§4.3): 3x3 matrix-matrix product. -/
def Mat3.mulMat {α : Type} [Add α] [Mul α] (a b : Mat3 α) : Mat3 α :=
  ⟨a.mulVec b.x_axis, a.mulVec b.y_axis, a.mulVec b.z_axis⟩

/-- Modelled from the spec (§4.3): 4x4 matrix-matrix product. -/
def Mat4.mulMat {α : Type} [Add α] [Mul α] (a b : Mat4 α) : Mat4 α :=
  ⟨a.mulVec b.x_axis, a.mulVec b.y_axis, a.mulVec b.z_axis,
   a.mulVec b.w_axis⟩

/-- Modelled from the spec (§3, §4.4): a quaternion is a 4-component
(x, y, z, w) aggregate interpreted as a rotation, with the same storage
rules as a 4-component float vector; the implementation module `quat`
is missing.  Components are modelled over ℝ. -/
@[ext]
structure Quat where
  x : ℝ
  y : ℝ
  z : ℝ
  w : ℝ

/-- The 4-component dot product of two quaternions (spec §4.4). -/
def Quat.dot (a b : Quat) : ℝ :=
  a.x * b.x + a.y * b.y + a.z * b.z + a.w * b.w

/-- Component-wise negation — the antipodal quaternion, representing
the same rotation. -/
def Quat.neg (q : Quat) : Quat :=
  ⟨-q.x, -q.y, -q.z, -q.w⟩

/-- Scalar-broadcast multiplication of a quaternion. -/
def Quat.scale (s : ℝ) (q : Quat) : Quat :=
  ⟨s * q.x, s * q.y, s * q.z, s * q.w⟩

/-- Component-wise addition of quaternions. -/
def Quat.add (a b : Quat) : Quat :=
  ⟨a.x + b.x, a.y + b.y, a.z + b.z, a.w + b.w⟩

/-- Linear interpolation (spec §4.2): `(1-t)·a + t·b`, with no clamping
of t. -/
def Quat.lerp (a b : Quat) (t : ℝ) : Quat :=
  Quat.add (Quat.scale (1 - t) a) (Quat.scale t b)

/-- A quaternion is normalized when its squared length is one — the
unit-rotation interpretation of spec §3. -/
def Quat.IsNormalized (q : Quat) : Prop :=
  Quat.dot q q = 1

/-- Modelled from the spec (§4.4): renormalization divides by the
length, the square root of the self dot product. -/
noncomputable def Quat.normalize (q : Quat) : Quat :=
  Quat.scale (Real.sqrt (Quat.dot q q))⁻¹ q

/-- Modelled from the spec (§4.4): the nearly-parallel dot-product
threshold above which slerp falls back to linear interpolation. -/
noncomputable def dotThreshold : ℝ := 0.9995

/-- Modelled from the spec (§4.4): the interpolation core of slerp,
after the shortest-arc sign selection.  When the inputs are nearly
parallel (dot product above the threshold) it falls back to linear
interpolation plus renormalization to avoid division by a near-zero
sine; otherwise it performs spherical interpolation with weights
sin((1-t)θ)/sin θ and sin(tθ)/sin θ for θ the arccosine of the dot
product. -/
noncomputable def Quat.slerpCore (a b : Quat) (t : ℝ) : Quat :=
  if dotThreshold < Quat.dot a b then
    Quat.normalize (Quat.lerp a b t)
  else
    Quat.add
      (Quat.scale (Real.sin ((1 - t) * Real.arccos (Quat.dot a b)) /
        Real.sin (Real.arccos (Quat.dot a b))) a)
      (Quat.scale (Real.sin (t * Real.arccos (Quat.dot a b)) /
        Real.sin (Real.arccos (Quat.dot a b))) b)

/-- Modelled from the spec (§4.4): shortest-arc slerp — when the dot
product of the endpoints is negative, b is negated before interpolating
so the shorter great-circle arc is taken. -/
noncomputable def Quat.slerp (a b : Quat) (t : ℝ) : Quat :=
  if Quat.dot a b < 0 then Quat.slerpCore a (Quat.neg b) t
  else Quat.slerpCore a b t

end Glam

namespace Glam

/-- C1: for every modelled operation of the public API (the
component-wise binary operations, the dot product, equality and
formatting) and every input, the register-backed computation read back
to the scalar representation equals the scalar-backed computation
exactly; in particular `v == v` holds and the formatted text agrees
across backends. -/
theorem backend_equivalence (op : BinOp) (a b : XYZW ℚ) :
    (SimdReg.binOp op (SimdReg.ofXYZW a) (SimdReg.ofXYZW b)).toXYZW
        = XYZW.binOp op a b ∧
    SimdReg.dot (SimdReg.ofXYZW a) (SimdReg.ofXYZW b) = XYZW.dot a b ∧
    SimdReg.beq (SimdReg.ofXYZW a) (SimdReg.ofXYZW b) = XYZW.beq a b ∧
    XYZW.beq a a = true ∧
    SimdReg.fmt (SimdReg.ofXYZW a) = XYZW.fmt a := by
  refine ⟨?_, ?_, ?_, ?_, ?_⟩
  · cases op <;> rfl
  · simp only [SimdReg.dot, SimdReg.ofXYZW, XYZW.dot]
    ring
  · simp only [SimdReg.beq, SimdReg.ofXYZW, XYZW.beq, Bool.and_assoc]
  · simp [XYZW.beq]
  · rfl

end Glam

namespace Glam

/-- C3: converting a 3-component vector to the padded variant and back
(`Vec3A::from` then `Vec3::from`) yields a value equal to the original,
for every representable input — the conversion pair is lossless and
round-trips exactly. -/
theorem vec3_padded_roundtrip {α : Type} [Zero α] (v : Vec3 α) :
    Vec3.ofVec3A (Vec3A.ofVec3 v) = v :=
  rfl

/-- C4: converting a 4-component vector to the padded 3-component
variant discards the fourth element: `Vec3A::from(Vec4::new(x,y,z,w))`
equals `Vec3A::new(x,y,z)` for all components. -/
theorem vec3a_of_vec4_discards_fourth {α : Type} [Zero α]
    (x y z w : α) :
    Vec3A.ofVec4 (Vec4.mk x y z w) = Vec3A.new x y z :=
  rfl

/-- C5: multiplying by the identity matrix is the identity in every
supported dimension — `m * identity == m` and `identity * v == v` for
2x2, 3x3 and 4x4 matrices, and in particular
`Mat3::identity() * Vec3::unit_x() == Vec3::unit_x()`. -/
theorem identity_matrix_laws {α : Type} [CommRing α]
    (m2 : Mat2 α) (m3 : Mat3 α) (m4 : Mat4 α)
    (v2 : Vec2 α) (v3 : Vec3 α) (v4 : Vec4 α) :
    Mat2.mulMat m2 Mat2.identity = m2 ∧
    Mat2.mulVec Mat2.identity v2 = v2 ∧
    Mat3.mulMat m3 Mat3.identity = m3 ∧
    Mat3.mulVec Mat3.identity v3 = v3 ∧
    Mat4.mulMat m4 Mat4.identity = m4 ∧
    Mat4.mulVec Mat4.identity v4 = v4 ∧
    Mat3.mulVec Mat3.identity Vec3.unit_x = (Vec3.unit_x : Vec3 α) := by
  refine ⟨?_, ?_, ?_, ?_, ?_, ?_, ?_⟩ <;>
    simp [Mat2.mulMat, Mat2.mulVec, Mat3.mulMat, Mat3.mulVec,
      Mat4.mulMat, Mat4.mulVec, Mat2.identity, Mat3.identity,
      Mat4.identity, Vec2.add, Vec2.scale, Vec3.add, Vec3.scale,
      Vec4.add, Vec4.scale, Vec3.unit_x]

/-- C6: swizzling `Vec4(1,2,3,4)` to reverse order (wzyx) yields
`Vec4(4,3,2,1)` and swizzling it to yzw yields `Vec3(2,3,4)`; in
general every size-reducing swizzle selects exactly the addressed
components, in the addressed order, into the destination type, and the
named swizzles agree with the generic addressing scheme. -/
theorem swizzle_addressing {α : Type} (v : Vec4 α) (i j k : Fin 4) :
    Vec4.wzyx (Vec4.mk (1 : ℚ) 2 3 4) = Vec4.mk 4 3 2 1 ∧
    Vec4.yzw (Vec4.mk (1 : ℚ) 2 3 4) = Vec3.mk 2 3 4 ∧
    (Vec4.swizzle3 v i j k).x = v.comp i ∧
    (Vec4.swizzle3 v i j k).y = v.comp j ∧
    (Vec4.swizzle3 v i j k).z = v.comp k ∧
    (Vec4.swizzle2 v i j).x = v.comp i ∧
    (Vec4.swizzle2 v i j).y = v.comp j ∧
    Vec4.yzw v = Vec4.swizzle3 v 1 2 3 ∧
    Vec4.xy v = Vec4.swizzle2 v 0 1 ∧
    Vec4.wzyx v = Vec4.swizzle4 v 3 2 1 0 := by
  refine ⟨rfl, rfl, rfl, rfl, rfl, rfl, rfl, ?_, ?_, ?_⟩ <;> rfl

/-- C7: for every supported aggregate size the identity-ordering
swizzle returns a value equal to the input, and every swizzle is a pure
function of the input's component values only: inputs with equal
components swizzle to equal results. -/
theorem identity_swizzle {α : Type} (v2 : Vec2 α) (v3 : Vec3 α)
    (v4 : Vec4 α) (u v : Vec4 α) (i j k l : Fin 4)
    (hx : u.x = v.x) (hy : u.y = v.y) (hz : u.z = v.z)
    (hw : u.w = v.w) :
    Vec2.xy v2 = v2 ∧ Vec3.xyz v3 = v3 ∧ Vec4.xyzw v4 = v4 ∧
    Vec4.swizzle4 u i j k l = Vec4.swizzle4 v i j k l := by
  have hcomp : ∀ m : Fin 4, u.comp m = v.comp m := by
    intro m
    fin_cases m <;> simp [Vec4.comp, hx, hy, hz, hw]
  exact ⟨rfl, rfl, rfl, by simp [Vec4.swizzle4, hcomp]⟩

/-- C7 witness: the identity swizzles and purity at a concrete input. -/
theorem identity_swizzle_witness :
    Vec2.xy (Vec2.mk (1 : ℚ) 2) = Vec2.mk 1 2 ∧
    Vec3.xyz (Vec3.mk (1 : ℚ) 2 3) = Vec3.mk 1 2 3 ∧
    Vec4.xyzw (Vec4.mk (1 : ℚ) 2 3 4) = Vec4.mk 1 2 3 4 ∧
    Vec4.swizzle4 (Vec4.mk (1 : ℚ) 2 3 4) 3 2 1 0
      = Vec4.swizzle4 (Vec4.mk (1 : ℚ) 2 3 4) 3 2 1 0 :=
  identity_swizzle (Vec2.mk (1 : ℚ) 2) (Vec3.mk (1 : ℚ) 2 3)
    (Vec4.mk (1 : ℚ) 2 3 4) (Vec4.mk (1 : ℚ) 2 3 4)
    (Vec4.mk (1 : ℚ) 2 3 4) 3 2 1 0 rfl rfl rfl rfl

/-- C8: formatting renders an ordered, comma-separated, bracketed list
of the component values — `Vec4::new(1.0, 2.0, 3.0, 4.0)` displays as
the literal string with brackets and comma-separated 1, 2, 3, 4 — and
the register backend formats identically to the scalar backend. -/
theorem display_format (v : Vec4 ℚ) :
    Vec4.fmt (Vec4.mk (1 : ℚ) 2 3 4) = "[1, 2, 3, 4]" ∧
    SimdReg.fmt (SimdReg.mk v.x v.y v.z v.w) = Vec4.fmt v := by
  exact ⟨rfl, rfl⟩

/-- C10: the 2-component vector supports the size-increasing swizzle
yyxx, duplicating its components into a 4-component vector: for every
(x, y) input the result is (y, y, x, x); in particular swizzling
`Vec4(1,2,3,4)` down to xy and back up by yyxx yields
`Vec4(2,2,1,1)`. -/
theorem vec2_yyxx_duplicates {α : Type} (v : Vec2 α) :
    Vec2.yyxx v = Vec4.mk v.y v.y v.x v.x ∧
    Vec2.yyxx (Vec4.xy (Vec4.mk (1 : ℚ) 2 3 4)) = Vec4.mk 2 2 1 1 :=
  ⟨rfl, rfl⟩

end Glam

namespace Glam

theorem Quat.lerp_self (q : Quat) (t : ℝ) : Quat.lerp q q t = q := by
  ext <;> simp [Quat.lerp, Quat.add, Quat.scale] <;> ring

theorem Quat.lerp_zero (a b : Quat) : Quat.lerp a b 0 = a := by
  ext <;> simp [Quat.lerp, Quat.add, Quat.scale]

theorem Quat.lerp_one (a b : Quat) : Quat.lerp a b 1 = b := by
  ext <;> simp [Quat.lerp, Quat.add, Quat.scale]

theorem Quat.normalize_of_normalized {q : Quat} (h : q.IsNormalized) :
    Quat.normalize q = q := by
  have h1 : Quat.dot q q = 1 := h
  rw [Quat.normalize, h1, Real.sqrt_one, inv_one]
  ext <;> simp [Quat.scale]

theorem Quat.dot_neg_right (a b : Quat) :
    Quat.dot a (Quat.neg b) = -Quat.dot a b := by
  simp [Quat.dot, Quat.neg]
  ring

theorem Quat.neg_normalized {b : Quat} (h : b.IsNormalized) :
    (Quat.neg b).IsNormalized := by
  have h1 : Quat.dot b b = 1 := h
  show Quat.dot (Quat.neg b) (Quat.neg b) = 1
  simp [Quat.dot, Quat.neg] at h1 ⊢
  linarith

theorem sin_arccos_pos {d : ℝ} (h1 : -1 < d) (h2 : d < 1) :
    0 < Real.sin (Real.arccos d) := by
  have hne : Real.arccos d ≠ Real.pi := by
    rw [Ne, Real.arccos_eq_pi]
    exact not_le.mpr h1
  exact Real.sin_pos_of_pos_of_lt_pi (Real.arccos_pos.mpr h2)
    (lt_of_le_of_ne (Real.arccos_le_pi d) hne)

theorem Quat.slerpCore_self (q : Quat) (t : ℝ) (hq : q.IsNormalized) :
    Quat.slerpCore q q t = q := by
  have h1 : Quat.dot q q = 1 := hq
  rw [Quat.slerpCore]
  simp only [h1]
  rw [if_pos (by norm_num [dotThreshold] : dotThreshold < (1 : ℝ))]
  rw [Quat.lerp_self]
  exact Quat.normalize_of_normalized hq

theorem Quat.slerpCore_zero (a b : Quat) (ha : a.IsNormalized)
    (hd : -1 < Quat.dot a b) : Quat.slerpCore a b 0 = a := by
  rw [Quat.slerpCore]
  split
  · rw [Quat.lerp_zero]
    exact Quat.normalize_of_normalized ha
  · rename_i h
    have hlt : Quat.dot a b < 1 :=
      lt_of_le_of_lt (not_lt.mp h) (by norm_num [dotThreshold])
    have hs : 0 < Real.sin (Real.arccos (Quat.dot a b)) :=
      sin_arccos_pos hd hlt
    ext <;> simp [Quat.add, Quat.scale, Real.sin_zero, div_self hs.ne']

theorem Quat.slerpCore_one (a b : Quat) (hb : b.IsNormalized)
    (hd : -1 < Quat.dot a b) : Quat.slerpCore a b 1 = b := by
  rw [Quat.slerpCore]
  split
  · rw [Quat.lerp_one]
    exact Quat.normalize_of_normalized hb
  · rename_i h
    have hlt : Quat.dot a b < 1 :=
      lt_of_le_of_lt (not_lt.mp h) (by norm_num [dotThreshold])
    have hs : 0 < Real.sin (Real.arccos (Quat.dot a b)) :=
      sin_arccos_pos hd hlt
    ext <;> simp [Quat.add, Quat.scale, Real.sin_zero, div_self hs.ne']

/-- C9: quaternion slerp satisfies the endpoint and constancy laws:
`slerp(q, q, t) = q` for t in [0, 1]; `slerp(a, b, 0) = a`; and
`slerp(a, b, 1) = b` up to sign (antipodal equivalence); moreover when
the dot product of a and b is negative, b is negated before
interpolating (the shortest arc is taken), and nearly-parallel inputs
take the linear-interpolation-plus-renormalization fallback by
definition of the core. -/
theorem slerp_laws (a b : Quat) (t : ℝ)
    (ha : a.IsNormalized) (hb : b.IsNormalized)
    (ht0 : 0 ≤ t) (ht1 : t ≤ 1) :
    Quat.slerp a a t = a ∧
    Quat.slerp a b 0 = a ∧
    (Quat.slerp a b 1 = b ∨ Quat.slerp a b 1 = Quat.neg b) ∧
    (Quat.dot a b < 0 →
      Quat.slerp a b t = Quat.slerpCore a (Quat.neg b) t) := by
  have ha1 : Quat.dot a a = 1 := ha
  refine ⟨?_, ?_, ?_, ?_⟩
  · rw [Quat.slerp, if_neg (by rw [ha1]; norm_num)]
    exact Quat.slerpCore_self a t ha
  · rw [Quat.slerp]
    split
    · rename_i h
      refine Quat.slerpCore_zero a (Quat.neg b) ha ?_
      rw [Quat.dot_neg_right]
      linarith
    · rename_i h
      exact Quat.slerpCore_zero a b ha (by linarith [not_lt.mp h])
  · rw [Quat.slerp]
    split
    · rename_i h
      right
      refine Quat.slerpCore_one a (Quat.neg b) (Quat.neg_normalized hb) ?_
      rw [Quat.dot_neg_right]
      linarith
    · rename_i h
      left
      exact Quat.slerpCore_one a b hb (by linarith [not_lt.mp h])
  · intro h
    rw [Quat.slerp, if_pos h]

/-- C9 witness: the slerp laws at the concrete unit quaternions
(0,0,0,1) and (1,0,0,0) with t = 1/2. -/
theorem slerp_laws_witness :
    Quat.slerp (Quat.mk 0 0 0 1) (Quat.mk 0 0 0 1) (1 / 2)
      = Quat.mk 0 0 0 1 ∧
    Quat.slerp (Quat.mk 0 0 0 1) (Quat.mk 1 0 0 0) 0
      = Quat.mk 0 0 0 1 ∧
    (Quat.slerp (Quat.mk 0 0 0 1) (Quat.mk 1 0 0 0) 1
        = Quat.mk 1 0 0 0 ∨
      Quat.slerp (Quat.mk 0 0 0 1) (Quat.mk 1 0 0 0) 1
        = Quat.neg (Quat.mk 1 0 0 0)) ∧
    (Quat.dot (Quat.mk 0 0 0 1) (Quat.mk 1 0 0 0) < 0 →
      Quat.slerp (Quat.mk 0 0 0 1) (Quat.mk 1 0 0 0) (1 / 2)
        = Quat.slerpCore (Quat.mk 0 0 0 1)
            (Quat.neg (Quat.mk 1 0 0 0)) (1 / 2)) :=
  slerp_laws (Quat.mk 0 0 0 1) (Quat.mk 1 0 0 0) (1 / 2)
    (by norm_num [Quat.IsNormalized, Quat.dot])
    (by norm_num [Quat.IsNormalized, Quat.dot])
    (by norm_num) (by norm_num)

end Glam
